import Mathlib

/-
Shallow embedding of src/status/running_notes.py (genomics-status).

The running-notes module is modelled as pure state-passing code:
  - the CouchDB databases reachable from `application` become function-valued
    fields of `Application` (read-only environment);
  - the running-notes store and every externally visible side effect
    (saved documents, dispatched Slack/e-mail messages, invocations of the
    notification pipeline) are threaded through `DbState`;
  - Python exceptions become an explicit `Err` value: a function that can
    raise returns the post-state together with `Except Err`/`Option Err`.
Wall-clock instants are abstracted to integer Unix timestamps; the ISO
rendering of a timestamp is abstracted to an injective string image.
-/

set_option autoImplicit false

namespace GenStat

/-- Wall-clock instant, abstracted to an integer Unix timestamp
(`datetime.datetime.timestamp`). -/
structure Time where
  ts : Nat
deriving DecidableEq, Repr

/-- Abstraction of `datetime.isoformat()`: an injective rendering of the
timestamp. -/
def Time.isoformat (t : Time) : String :=
  "iso-" ++ toString t.ts

/-- The part of a project document read by `make_running_note`:
`doc["project_name"]` and `doc["details"].get("project_coordinator", "")`. -/
structure ProjectDoc where
  project_name : String
  project_coordinator : String
deriving DecidableEq, Repr

/-- The `newNote` record built and saved by `make_running_note`
(running_notes.py lines 120-131). -/
structure RunningNote where
  id : String
  user : String
  email : String
  note : String
  categories : List String
  projects : List String
  parent : String
  note_type : String
  created_at_utc : String
  updated_at_utc : String
deriving DecidableEq, Repr

/-- Which channel a dispatched notification used. -/
inductive Channel where
  | slack
  | email
deriving DecidableEq, Repr

/-- One successfully dispatched message (a Slack chat_postMessage or an SMTP
sendmail) of `notify_tagged_user`; the formatted message bodies are pure
string formatting and are not modelled. -/
structure SentNotification where
  channel : Channel
  recipient : String
  tagtype : String
deriving DecidableEq, Repr

/-- One invocation of `NEWRunningNotesDataHandler.notify_tagged_user`
as observed from `make_running_note` (arguments that route the call). -/
structure NotifyCall where
  tags : List String
  project_id : String
  project_name : String
  tagtype : String
deriving DecidableEq, Repr

/-- Modelled from the spec: `RunningNotesDataHandler.make_project_running_note`
lives in status/projects.py, which is not under src/.  Per the spec it persists
one derived project-scoped running note (parent project id, note body, the
comma-joined category string, author name and address). -/
structure LegacyNote where
  project : String
  note : String
  category : String
  user : String
  email : String
deriving DecidableEq, Repr

/-- Mutable world state threaded through the handlers: the running-notes
store plus the externally visible side-effect traces. -/
structure DbState where
  running_notes_db : List RunningNote
  legacy_notes : List LegacyNote
  sent : List SentNotification
  calls : List NotifyCall
  legacy_calls : List (List String × String)
deriving DecidableEq, Repr

/-- Read-only environment: the `application` object of the handlers.
`projects_db_view pid` returns the row values of view `project/project_id`
keyed by `pid`; `projects_db_get` is `projects_db.get`;
`x_flowcells_view`/`nanopore_runs_view` return the row values of view
`names/project_ids_list` for the given key; `gs_users_db` lists the row keys
of view `authorized/users`; `user_prefs` is
`get_user_details(addr).get("notification_preferences")`; `slack_ok addr` and
`email_ok addr` say whether the Slack path and the SMTP submission for that
address run without an exception.  `default_created_time` is the value of the
default argument `created_time=datetime.datetime.now(...)`, which Python
evaluates once when the function definition is executed (module import). -/
structure Application where
  projects_db_view : String → List String
  projects_db_get : String → Option ProjectDoc
  x_flowcells_view : String → List (List String)
  nanopore_runs_view : String → List (List String)
  gs_users_db : List String
  user_prefs : String → Option String
  slack_ok : String → Bool
  email_ok : String → Bool
  default_created_time : Time

/-- Python exceptions that can escape the modelled code. -/
inductive Err where
  | unboundLocal (name : String)
  | indexError
  | typeError
  | smtpError (addr : String)
deriving DecidableEq, Repr

/-- Python `s.split("@")[0]`: the characters before the first `@`, or the
whole string when there is none. -/
def localPart (s : String) : String :=
  String.mk (s.toList.takeWhile (fun c => c ≠ '@'))

/-- Python `str.lower()`, restricted to ASCII letters plus the accented Latin
letters used in coordinator names. -/
def lowerChar (c : Char) : Char :=
  if c.isUpper then c.toLower
  else if c = 'Å' then 'å'
  else if c = 'Ä' then 'ä'
  else if c = 'Ö' then 'ö'
  else if c = 'É' then 'é'
  else if c = 'Ü' then 'ü'
  else c

/-- Python `str.lower()` over a string. -/
def pyLower (s : String) : String :=
  String.mk (s.toList.map lowerChar)

/-- Accumulator pass for whitespace splitting: `cur` holds the reversed
characters of the field being read. -/
def splitWsAux : List Char → List Char → List String
  | cur, [] => if cur = [] then [] else [String.mk cur.reverse]
  | cur, c :: rest =>
      if c.isWhitespace then
        if cur = [] then splitWsAux [] rest
        else String.mk cur.reverse :: splitWsAux [] rest
      else splitWsAux (c :: cur) rest

/-- Python `str.split()` with no argument: split on whitespace runs, dropping
empty fields. -/
def pySplitWs (s : String) : List String :=
  splitWsAux [] s.toList

/-- Modelled from the source combination
`unicodedata.normalize("NFKD", s).encode("ASCII", "ignore").decode("utf-8")`:
NFKD decomposition followed by dropping every non-ASCII code point, restricted
to a table of the lower-case accented Latin letters that occur in coordinator
names; a non-ASCII character without table entry is dropped, as the ASCII
re-encoding with errors=ignore drops what it cannot represent. -/
def foldChar (c : Char) : List Char :=
  if c.toNat < 128 then [c]
  else if c = 'å' then ['a']
  else if c = 'ä' then ['a']
  else if c = 'ö' then ['o']
  else if c = 'é' then ['e']
  else if c = 'è' then ['e']
  else if c = 'ü' then ['u']
  else if c = 'á' then ['a']
  else if c = 'à' then ['a']
  else if c = 'ç' then ['c']
  else if c = 'ñ' then ['n']
  else []

/-- NFKD-decompose and drop non-ASCII, over a whole string. -/
def asciiFold (s : String) : String :=
  String.mk (s.toList.foldr (fun c acc => foldChar c ++ acc) [])

/-- Character class of the tag regex `(@)([a-zA-Z0-9.-]+)`. -/
def isTagChar (c : Char) : Bool :=
  (('a' ≤ c && c ≤ 'z') || ('A' ≤ c && c ≤ 'Z') || ('0' ≤ c && c ≤ '9')
    || c = '.' || c = '-')

/-- Scanner for `re.findall("(@)([a-zA-Z0-9.-]+)", note)`: the accumulator
holds the reversed run of tag characters currently being read after a `@`,
or `none` when not inside a candidate match. -/
def findTagsAux : Option (List Char) → List Char → List String
  | none, [] => []
  | some run, [] => if run = [] then [] else [String.mk run.reverse]
  | none, c :: rest =>
      if c = '@' then findTagsAux (some []) rest else findTagsAux none rest
  | some run, c :: rest =>
      if isTagChar c then findTagsAux (some (c :: run)) rest
      else if run = [] then
        if c = '@' then findTagsAux (some []) rest else findTagsAux none rest
      else
        String.mk run.reverse ::
          (if c = '@' then findTagsAux (some []) rest else findTagsAux none rest)

/-- The `userTags` list: second groups of all matches of
`(@)([a-zA-Z0-9.-]+)` in the note text, in order, duplicates kept. -/
def findTags (s : String) : List String :=
  findTagsAux none s.toList

/-- Python dict assignment `d[k] = v` on an insertion-ordered dict modelled as
an association list: an existing key keeps its position and gets the new
value, a new key is appended. -/
def dictInsert {α : Type} (k : String) (v : α) :
    List (String × α) → List (String × α)
  | [] => [(k, v)]
  | p :: rest => if p.1 = k then (k, v) :: rest else p :: dictInsert k v rest

/-- Python dict lookup `d.get(k)` on the association-list model. -/
def lookupD {α : Type} : List (String × α) → String → Option α
  | [], _ => none
  | p :: rest, k => if p.1 = k then some p.2 else lookupD rest k

/-- The `view_result` dict of `notify_tagged_user`: for every authorized-users
row key other than `"genstat_defaults"`, map its e-mail local part to the full
address (running_notes.py lines 226-228). -/
def viewResult (app : Application) : List (String × String) :=
  app.gs_users_db.foldl
    (fun d k => if k = "genstat_defaults" then d else dictInsert (localPart k) k d)
    []

/-- Body of the per-user loop of `notify_tagged_user` (lines 244-359): resolve
the tagged handle against `view_result` (unknown handles are skipped
silently), read the notification preference (default `"Both"`), attempt the
Slack direct message when the preference asks for it — any exception in the
Slack path is caught and demotes the preference to `"E-mail"` — then attempt
the SMTP submission when the (possibly demoted) preference asks for it.  The
SMTP path is not wrapped in any try/except: its failure escapes as an
exception.  Returns the messages actually dispatched for this user and the
escaping exception, if any. -/
def notifyUser (app : Application) (vr : List (String × String))
    (tagtype u : String) : List SentNotification × Option Err :=
  match lookupD vr u with
  | none => ([], none)
  | some addr =>
    let pref := (app.user_prefs addr).getD "Both"
    if pref = "Slack" ∨ pref = "Both" then
      if app.slack_ok addr then
        if pref = "Both" then
          if app.email_ok addr then
            ([⟨Channel.slack, addr, tagtype⟩, ⟨Channel.email, addr, tagtype⟩], none)
          else ([⟨Channel.slack, addr, tagtype⟩], some (Err.smtpError addr))
        else ([⟨Channel.slack, addr, tagtype⟩], none)
      else
        if app.email_ok addr then ([⟨Channel.email, addr, tagtype⟩], none)
        else ([], some (Err.smtpError addr))
    else
      if pref = "E-mail" ∨ pref = "Both" then
        if app.email_ok addr then ([⟨Channel.email, addr, tagtype⟩], none)
        else ([], some (Err.smtpError addr))
      else ([], none)

/-- The `for user in userTags` loop: an escaping exception aborts the
remaining users. -/
def notifyLoop (app : Application) (vr : List (String × String))
    (tagtype : String) : List String → List SentNotification × Option Err
  | [] => ([], none)
  | u :: rest =>
    match notifyUser app vr tagtype u with
    | (sends, some e) => (sends, some e)
    | (sends, none) =>
      let r := notifyLoop app vr tagtype rest
      (sends ++ r.1, r.2)

/-- `NEWRunningNotesDataHandler.notify_tagged_user` (lines 205-359).  The
note text, categories, tagger and timestamp only feed the formatted message
bodies, which are not modelled; the routing state is returned as the list of
dispatched messages together with the escaping exception, if any. -/
def notify_tagged_user (app : Application) (userTags : List String)
    (project : String × String) (note : String) (categories : List String)
    (tagger : String) (timestamp : Time) (tagtype : String) :
    List SentNotification × Option Err :=
  notifyLoop app (viewResult app) tagtype userTags

/-- Data carried by the `note_type == "project"` branch of the linkage
resolution: the `proj_ids` pair `[partition_id, project_name]` and the
pre-normalization coordinator handle `proj_coord_with_accents`. -/
structure ProjMeta where
  proj_ids : String × String
  proj_coord_with_accents : String
deriving DecidableEq, Repr

/-- Linkage resolution of `make_running_note` (lines 92-119): the
`if/elif` chain on `note_type`.  `"project"` takes the last row of view
`project/project_id` (the `for` loop keeps overwriting `doc_id`; no row leaves
`doc_id` unbound), fetches the document and builds `proj_ids` and the
dotted lower-cased coordinator handle.  `"flowcell"` and `"flowcell_ont"`
take `rows[0].value` of view `names/project_ids_list` (no row raises
IndexError).  Any other `note_type` — including `"workset"` — assigns nothing,
so building `newNote` raises an unbound-local error for
`connected_projects`. -/
def resolveProjects (app : Application) (note_type partition_id : String) :
    Except Err (List String × Option ProjMeta) :=
  if note_type = "project" then
    match (app.projects_db_view partition_id).getLast? with
    | none => Except.error (Err.unboundLocal "doc_id")
    | some doc_id =>
      match app.projects_db_get doc_id with
      | none => Except.error Err.typeError
      | some doc =>
        let proj_coord_with_accents :=
          String.intercalate "." (pySplitWs (pyLower doc.project_coordinator))
        Except.ok ([partition_id],
          some ⟨(partition_id, doc.project_name), proj_coord_with_accents⟩)
  else if note_type = "flowcell" then
    match (app.x_flowcells_view partition_id).head? with
    | none => Except.error Err.indexError
    | some ps => Except.ok (ps, none)
  else if note_type = "flowcell_ont" then
    match (app.nanopore_runs_view partition_id).head? with
    | none => Except.error Err.indexError
    | some ps => Except.ok (ps, none)
  else Except.error (Err.unboundLocal "connected_projects")

/-- The `newNote` dict (lines 120-131).  When no `created_time` argument is
passed, the frozen default `app.default_created_time` is used. -/
def builtNote (app : Application) (partition_id note : String)
    (categories : List String) (user email note_type : String)
    (created_time? : Option Time) (connected_projects : List String) :
    RunningNote :=
  let created_time := created_time?.getD app.default_created_time
  { id := partition_id ++ ":" ++ toString created_time.ts
    user := user
    email := email
    note := note
    categories := categories
    projects := connected_projects
    parent := partition_id
    note_type := note_type
    created_at_utc := created_time.isoformat
    updated_at_utc := created_time.isoformat }

/-- `application.running_notes_db.save(newNote)` (line 133). -/
def saveNote (s : DbState) (n : RunningNote) : DbState :=
  { s with running_notes_db := s.running_notes_db ++ [n] }

/-- Record one invocation of `notify_tagged_user` together with the messages
it dispatched. -/
def recordCall (s : DbState) (tags : List String) (project : String × String)
    (tagtype : String) (sends : List SentNotification) : DbState :=
  { s with
      sent := s.sent ++ sends
      calls := s.calls ++ [⟨tags, project.1, project.2, tagtype⟩] }

/-- The coordinator half of the `note_type == "project"` notification block
(lines 150-170): notify the normalized coordinator handle with reason
`"creation"` unless it is empty, already among the extracted tags, or equal
to the local part of the author address. -/
def notifyCoord (app : Application) (s : DbState) (meta : ProjMeta)
    (userTags : List String) (note : String) (categories : List String)
    (user email : String) (ct : Time) : DbState × Option Err :=
  let proj_coord := asciiFold meta.proj_coord_with_accents
  if proj_coord ≠ "" ∧ proj_coord ∉ userTags ∧ proj_coord ≠ localPart email
  then
    let r := notify_tagged_user app [proj_coord] meta.proj_ids note
      categories user ct "creation"
    (recordCall s [proj_coord] meta.proj_ids "creation" r.1, r.2)
  else (s, none)

/-- The `note_type == "project"` notification block of `make_running_note`
(lines 135-170): notify the tagged users with reason `"userTag"` when the
note text contains tags — an escaping exception skips the coordinator
half — then run the coordinator half. -/
def notifyPhase (app : Application) (s : DbState) (meta : ProjMeta)
    (note : String) (categories : List String) (user email : String)
    (ct : Time) : DbState × Option Err :=
  let userTags := findTags note
  if userTags = [] then
    notifyCoord app s meta userTags note categories user email ct
  else
    let r := notify_tagged_user app userTags meta.proj_ids note categories
      user ct "userTag"
    let s1 := recordCall s userTags meta.proj_ids "userTag" r.1
    match r.2 with
    | some e => (s1, some e)
    | none => notifyCoord app s1 meta userTags note categories user email ct

/-- The `choose_link` dict (lines 172-176). -/
def chooseLink (note_type : String) : String :=
  if note_type = "flowcell" then "flowcells"
  else if note_type = "workset" then "worksets"
  else if note_type = "flowcell_ont" then "flowcells_ont"
  else ""

/-- Python `note_type.split("_")[0]`: the characters before the first
underscore, or the whole string when there is none. -/
def firstToken (s : String) : String :=
  String.mk (s.toList.takeWhile (fun c => c ≠ '_'))

/-- The derived note body (lines 177-181): a header line naming the source
entity type with an anchor link to the parent id, followed by the original
note text. -/
def derivedNoteBody (note_type partition_id note : String) : String :=
  "#####*Running note posted on " ++ firstToken note_type ++ " "
    ++ "<a class=\x27text-decoration-none\x27 href=\x27/" ++ chooseLink note_type
    ++ "/" ++ partition_id ++ "\x27>" ++ partition_id ++ "</a>"
    ++ ":*\n" ++ note

/-- Modelled from the spec: `RunningNotesDataHandler.make_project_running_note`
(status/projects.py) is not under src/.  It persists the derived
project-scoped note, and — per the spec design notes, which state that the
source re-runs the tag/coordinator notification when propagating — it re-runs
the user-tag notification pipeline on the derived note body whenever that body
contains tags; the re-run is recorded in `legacy_calls`.  It performs no
further flowcell/workset propagation. -/
def make_project_running_note (app : Application) (s : DbState)
    (proj_id project_note category user email : String) : DbState :=
  { s with
      legacy_notes := s.legacy_notes ++ [⟨proj_id, project_note, category, user, email⟩]
      legacy_calls := s.legacy_calls ++
        (if findTags project_note = [] then []
         else [(findTags project_note, proj_id)]) }

/-- The propagation loop of `make_running_note` (lines 182-202): one legacy
derived note per connected project, all with the same body and the
comma-joined category string. -/
def propagationPhase (app : Application) (s : DbState)
    (note_type partition_id note category user email : String)
    (ps : List String) : DbState :=
  ps.foldl
    (fun st proj_id =>
      make_project_running_note app st proj_id
        (derivedNoteBody note_type partition_id note) category user email)
    s

/-- The notification part of `make_running_note` after the save: only
project-type notes notify (line 135), and the project branch always carries
its `ProjMeta`. -/
def notifyStep (app : Application) (s1 : DbState) (note : String)
    (categories : List String) (user email note_type : String) (ct : Time)
    (meta? : Option ProjMeta) : DbState × Option Err :=
  if note_type = "project" then
    match meta? with
    | some meta => notifyPhase app s1 meta note categories user email ct
    | none => (s1, none)
  else (s1, none)

/-- The propagation part of `make_running_note` (lines 171-202): only
flowcell, workset and flowcell_ont notes are copied onto their connected
projects. -/
def propagateStep (app : Application) (s2 : DbState)
    (partition_id note : String) (categories : List String)
    (user email note_type : String) (ps : List String) : DbState :=
  if note_type = "flowcell" ∨ note_type = "workset"
      ∨ note_type = "flowcell_ont" then
    propagationPhase app s2 note_type partition_id note
      (String.intercalate ", " categories) user email ps
  else s2

/-- Everything `make_running_note` does once the linkage resolved: build and
save `newNote`, notify, propagate.  An exception escaping the notification
phase aborts the rest but leaves the already-saved note in place. -/
def afterResolve (app : Application) (s : DbState) (partition_id note : String)
    (categories : List String) (user email note_type : String)
    (created_time? : Option Time) (connected_projects : List String)
    (meta? : Option ProjMeta) : DbState × Except Err RunningNote :=
  let newNote := builtNote app partition_id note categories user email
    note_type created_time? connected_projects
  match notifyStep app (saveNote s newNote) note categories user email
    note_type (created_time?.getD app.default_created_time) meta? with
  | (s2, some e) => (s2, Except.error e)
  | (s2, none) =>
    (propagateStep app s2 partition_id note categories user email note_type
      connected_projects,
     Except.ok newNote)

/-- `NEWRunningNotesDataHandler.make_running_note` (lines 81-203): resolve the
linkage, build and save `newNote`, run the project-only notification block,
then propagate flowcell/workset/flowcell_ont notes onto every connected
project.  Returns the post-state and the created note, or the escaping
exception. -/
def make_running_note (app : Application) (s : DbState)
    (partition_id note : String) (categories : List String)
    (user email note_type : String) (created_time? : Option Time) :
    DbState × Except Err RunningNote :=
  match resolveProjects app note_type partition_id with
  | Except.error e => (s, Except.error e)
  | Except.ok (connected_projects, meta?) =>
    afterResolve app s partition_id note categories user email note_type
      created_time? connected_projects meta?

/-- Parsed JSON body of the POST request; a missing field is `none`. -/
structure PostBody where
  note : Option String
  categories : Option (List String)
  note_type : Option String
deriving DecidableEq, Repr

/-- The current user of the request (`get_current_user`). -/
structure UserInfo where
  name : String
  email : String
deriving DecidableEq, Repr

/-- Outcome written by the POST handler. -/
inductive PostResult where
  | badRequest (body : String)
  | created (n : RunningNote)
deriving DecidableEq, Repr

/-- `NEWRunningNotesDataHandler.post` (lines 57-79): empty or missing `note`
answers 400 with an HTML body and touches nothing; otherwise
`make_running_note` runs with the frozen default creation time and the
created note is answered with 201. -/
def post (app : Application) (s : DbState) (partition_id : String)
    (data : PostBody) (user : UserInfo) :
    DbState × Except Err (Nat × PostResult) :=
  let note := data.note.getD ""
  let category := data.categories.getD []
  let note_type := data.note_type.getD ""
  if note = "" then
    (s, Except.ok (400,
      PostResult.badRequest
        "<html><body>No project id or note parameters found</body></html>"))
  else
    match make_running_note app s partition_id note category user.name
      user.email note_type none with
    | (s2, Except.ok n) => (s2, Except.ok (201, PostResult.created n))
    | (s2, Except.error e) => (s2, Except.error e)

/-- The six fields copied into `note_contents` by the GET handler
(lines 37-46). -/
structure NoteContents where
  user : String
  email : String
  note : String
  categories : List String
  created_at_utc : String
  updated_at_utc : String
deriving DecidableEq, Repr

/-- Projection of a stored document onto the returned fields. -/
def noteContents (d : RunningNote) : NoteContents :=
  ⟨d.user, d.email, d.note, d.categories, d.created_at_utc, d.updated_at_utc⟩

/-- Insert into a list sorted descending by key (stable). -/
def insertDesc (p : String × NoteContents) :
    List (String × NoteContents) → List (String × NoteContents)
  | [] => [p]
  | q :: rest => if q.1 ≤ p.1 then p :: q :: rest else q :: insertDesc p rest

/-- `sorted(items, key=fst, reverse=True)`. -/
def sortDesc : List (String × NoteContents) → List (String × NoteContents)
  | [] => []
  | p :: rest => insertDesc p (sortDesc rest)

/-- `NEWRunningNotesDataHandler.get` (lines 29-55): build the
`running_notes_json` dict keyed by `created_at_utc` — a repeated timestamp
overwrites the earlier entry — then emit the entries sorted descending by
key. -/
def getRunningNotes (docs : List RunningNote) :
    List (String × NoteContents) :=
  sortDesc
    (docs.foldl (fun acc d => dictInsert d.created_at_utc (noteContents d) acc)
      [])

/-! Concrete environments used to exercise the embedding. -/

/-- Empty initial state. -/
def s0 : DbState := ⟨[], [], [], [], []⟩

/-- Environment with project `P1` (name `Project One`, no coordinator) and one
authorized user `bob@x.se` who prefers e-mail, whose SMTP submission fails. -/
def app1 : Application :=
  { projects_db_view := fun pid => if pid = "P1" then ["d1"] else []
    projects_db_get := fun d =>
      if d = "d1" then some ⟨"Project One", ""⟩ else none
    x_flowcells_view := fun _ => []
    nanopore_runs_view := fun _ => []
    gs_users_db := ["bob@x.se"]
    user_prefs := fun _ => some "E-mail"
    slack_ok := fun _ => true
    email_ok := fun _ => false
    default_created_time := ⟨100⟩ }

/-- Like `app1`, but the Slack path fails, SMTP works and the user prefers
both channels. -/
def appW : Application :=
  { app1 with
      user_prefs := fun _ => some "Both"
      slack_ok := fun _ => false
      email_ok := fun _ => true }

/-- Like `app1`, plus flowcell `FC1` linked to projects `P001` and `P002`. -/
def app2 : Application :=
  { app1 with
      x_flowcells_view := fun pid =>
        if pid = "FC1" then [["P001", "P002"]] else [] }

/-- Like `app1`, plus flowcell `FC0` whose linkage row carries an empty
project list. -/
def app5 : Application :=
  { app1 with
      x_flowcells_view := fun pid => if pid = "FC0" then [[]] else [] }

/-- Environment with project `P6` (name `Proj Six`, coordinator `Jane Doe`)
and no authorized users. -/
def app6 : Application :=
  { projects_db_view := fun pid => if pid = "P6" then ["d6"] else []
    projects_db_get := fun d =>
      if d = "d6" then some ⟨"Proj Six", "Jane Doe"⟩ else none
    x_flowcells_view := fun _ => []
    nanopore_runs_view := fun _ => []
    gs_users_db := []
    user_prefs := fun _ => none
    slack_ok := fun _ => true
    email_ok := fun _ => true
    default_created_time := ⟨50⟩ }

/-- Environment with project `P7` (name `Proj Seven`, no coordinator) and no
authorized users. -/
def app7 : Application :=
  { app6 with
      projects_db_view := fun pid => if pid = "P7" then ["d7"] else []
      projects_db_get := fun d =>
        if d = "d7" then some ⟨"Proj Seven", ""⟩ else none }

/-- POST body without a `note` field. -/
def dataE : PostBody := ⟨none, some [], some "project"⟩

/-- POST body with a non-empty `note`. -/
def dataN : PostBody := ⟨some "hello", none, some "project"⟩

/-- Author of the example POST requests. -/
def u7 : UserInfo := ⟨"u", "u@x.se"⟩

/-- The note created by the example POST with `dataN` against `app7`. -/
def n7 : RunningNote :=
  builtNote app7 "P7" "hello" [] "u" "u@x.se" "project" none ["P7"]

/-- The state after that POST. -/
def s7 : DbState := ⟨[n7], [], [], [], []⟩

/-! Helper lemmas: how each stage of `make_running_note` moves the state. -/

theorem recordCall_running (s : DbState) (tags : List String)
    (project : String × String) (tagtype : String)
    (sends : List SentNotification) :
    (recordCall s tags project tagtype sends).running_notes_db
      = s.running_notes_db := rfl

theorem notifyCoord_running (app : Application) (s : DbState) (meta : ProjMeta)
    (userTags : List String) (note : String) (cats : List String)
    (user email : String) (ct : Time) :
    ((notifyCoord app s meta userTags note cats user email ct).1).running_notes_db
      = s.running_notes_db := by
  simp only [notifyCoord]
  split <;> rfl

theorem notifyPhase_running (app : Application) (s : DbState) (meta : ProjMeta)
    (note : String) (cats : List String) (user email : String) (ct : Time) :
    ((notifyPhase app s meta note cats user email ct).1).running_notes_db
      = s.running_notes_db := by
  simp only [notifyPhase]
  split
  · rw [notifyCoord_running]
  · split
    · rfl
    · rw [notifyCoord_running]
      rfl

theorem notifyStep_running (app : Application) (s1 : DbState) (note : String)
    (cats : List String) (user email nt : String) (ct : Time)
    (meta? : Option ProjMeta) :
    ((notifyStep app s1 note cats user email nt ct meta?).1).running_notes_db
      = s1.running_notes_db := by
  unfold notifyStep
  split
  · cases meta? with
    | some meta => exact notifyPhase_running app s1 meta note cats user email ct
    | none => rfl
  · rfl

theorem propagationPhase_eq (app : Application)
    (note_type pid note category user email : String) (ps : List String)
    (s : DbState) :
    propagationPhase app s note_type pid note category user email ps
      = { s with
            legacy_notes := s.legacy_notes ++ ps.map (fun p =>
              ⟨p, derivedNoteBody note_type pid note, category, user, email⟩),
            legacy_calls := s.legacy_calls ++
              (if findTags (derivedNoteBody note_type pid note) = [] then []
               else ps.map fun p =>
                 (findTags (derivedNoteBody note_type pid note), p)) } := by
  induction ps generalizing s with
  | nil => simp [propagationPhase]
  | cons p rest ih =>
      simp only [propagationPhase, List.foldl_cons] at *
      rw [ih]
      unfold make_project_running_note
      by_cases hb : findTags (derivedNoteBody note_type pid note) = [] <;>
        simp [hb, List.append_assoc]

theorem propagateStep_running (app : Application) (s2 : DbState)
    (pid note : String) (cats : List String) (user email nt : String)
    (ps : List String) :
    (propagateStep app s2 pid note cats user email nt ps).running_notes_db
      = s2.running_notes_db := by
  unfold propagateStep
  split
  · rw [propagationPhase_eq]
  · rfl

theorem make_eq_afterResolve (app : Application) (s : DbState)
    (pid note : String) (cats : List String) (user email nt : String)
    (t? : Option Time) (ps : List String) (m? : Option ProjMeta)
    (hres : resolveProjects app nt pid = Except.ok (ps, m?)) :
    make_running_note app s pid note cats user email nt t?
      = afterResolve app s pid note cats user email nt t? ps m? := by
  unfold make_running_note
  rw [hres]

theorem make_eq_error (app : Application) (s : DbState) (pid note : String)
    (cats : List String) (user email nt : String) (t? : Option Time) (e : Err)
    (hres : resolveProjects app nt pid = Except.error e) :
    make_running_note app s pid note cats user email nt t?
      = (s, Except.error e) := by
  unfold make_running_note
  rw [hres]

theorem afterResolve_run_db (app : Application) (s : DbState)
    (pid note : String) (cats : List String) (user email nt : String)
    (t? : Option Time) (ps : List String) (m? : Option ProjMeta) :
    (afterResolve app s pid note cats user email nt t? ps m?).1.running_notes_db
      = s.running_notes_db
        ++ [builtNote app pid note cats user email nt t? ps] := by
  simp only [afterResolve]
  cases hns : notifyStep app
      (saveNote s (builtNote app pid note cats user email nt t? ps)) note cats
      user email nt (t?.getD app.default_created_time) m? with
  | mk s2 e? =>
    have h1 : (notifyStep app
        (saveNote s (builtNote app pid note cats user email nt t? ps)) note
        cats user email nt (t?.getD app.default_created_time) m?).1 = s2 := by
      rw [hns]
    have h2 : s2.running_notes_db
        = (saveNote s (builtNote app pid note cats user email nt t? ps)).running_notes_db := by
      rw [← h1, notifyStep_running]
    cases e? with
    | some e => simpa [saveNote] using h2
    | none => simpa [propagateStep_running, saveNote] using h2

theorem make_ok_inv (app : Application) (s : DbState) (pid note : String)
    (cats : List String) (user email nt : String) (t? : Option Time)
    (n : RunningNote)
    (h : (make_running_note app s pid note cats user email nt t?).2
      = Except.ok n) :
    ∃ ps m?, resolveProjects app nt pid = Except.ok (ps, m?)
      ∧ n = builtNote app pid note cats user email nt t? ps := by
  cases hres : resolveProjects app nt pid with
  | error e =>
      rw [make_eq_error app s pid note cats user email nt t? e hres] at h
      exact absurd h (by simp)
  | ok pm =>
      obtain ⟨ps, m?⟩ := pm
      refine ⟨ps, m?, rfl, ?_⟩
      rw [make_eq_afterResolve app s pid note cats user email nt t? ps m? hres]
        at h
      simp only [afterResolve] at h
      cases hns : notifyStep app
          (saveNote s (builtNote app pid note cats user email nt t? ps)) note
          cats user email nt (t?.getD app.default_created_time) m? with
      | mk s2 e? =>
        rw [hns] at h
        cases e? with
        | some e => simp at h
        | none =>
            simp at h
            exact h.symm

theorem resolve_project_ps (app : Application) (pid : String)
    (ps : List String) (m? : Option ProjMeta)
    (h : resolveProjects app "project" pid = Except.ok (ps, m?)) :
    ps = [pid] := by
  unfold resolveProjects at h
  rw [if_pos rfl] at h
  cases hl : (app.projects_db_view pid).getLast? with
  | none => rw [hl] at h; simp at h
  | some doc_id =>
    rw [hl] at h
    dsimp only at h
    cases hg : app.projects_db_get doc_id with
    | none => rw [hg] at h; simp at h
    | some doc =>
      rw [hg] at h
      simp only [Except.ok.injEq, Prod.mk.injEq] at h
      exact h.1.symm

theorem notifyUser_err_none (app : Application) (vr : List (String × String))
    (tagtype u : String) (h : ∀ a, app.email_ok a = true) :
    (notifyUser app vr tagtype u).2 = none := by
  unfold notifyUser
  cases lookupD vr u with
  | none => rfl
  | some addr =>
    dsimp only
    repeat' split
    all_goals simp_all

theorem notifyLoop_err_none (app : Application) (vr : List (String × String))
    (tagtype : String) (h : ∀ a, app.email_ok a = true) (tags : List String) :
    (notifyLoop app vr tagtype tags).2 = none := by
  induction tags with
  | nil => rfl
  | cons u rest ih =>
    simp only [notifyLoop]
    cases hnu : notifyUser app vr tagtype u with
    | mk sends e? =>
      cases e? with
      | some e =>
          have hne := notifyUser_err_none app vr tagtype u h
          rw [hnu] at hne
          simp at hne
      | none => simpa using ih

theorem recordCall_calls (s : DbState) (tags : List String)
    (project : String × String) (tagtype : String)
    (sends : List SentNotification) :
    (recordCall s tags project tagtype sends).calls
      = s.calls ++ [⟨tags, project.1, project.2, tagtype⟩] := rfl

theorem notifyCoord_calls (app : Application) (s : DbState) (meta : ProjMeta)
    (userTags : List String) (note : String) (cats : List String)
    (user email : String) (ct : Time) :
    ((notifyCoord app s meta userTags note cats user email ct).1).calls
      = s.calls ++
        (if asciiFold meta.proj_coord_with_accents ≠ ""
            ∧ asciiFold meta.proj_coord_with_accents ∉ userTags
            ∧ asciiFold meta.proj_coord_with_accents ≠ localPart email
         then [⟨[asciiFold meta.proj_coord_with_accents], meta.proj_ids.1,
                 meta.proj_ids.2, "creation"⟩]
         else []) := by
  simp only [notifyCoord]
  split
  case isTrue hc => rw [recordCall_calls]
  case isFalse hc => rw [List.append_nil]

theorem notifyPhase_calls_of_ok (app : Application) (s : DbState)
    (meta : ProjMeta) (note : String) (cats : List String)
    (user email : String) (ct : Time) (s2 : DbState)
    (h : notifyPhase app s meta note cats user email ct = (s2, none)) :
    s2.calls = s.calls
      ++ (if findTags note = [] then []
          else [⟨findTags note, meta.proj_ids.1, meta.proj_ids.2, "userTag"⟩])
      ++ (if asciiFold meta.proj_coord_with_accents ≠ ""
            ∧ asciiFold meta.proj_coord_with_accents ∉ findTags note
            ∧ asciiFold meta.proj_coord_with_accents ≠ localPart email
          then [⟨[asciiFold meta.proj_coord_with_accents], meta.proj_ids.1,
                  meta.proj_ids.2, "creation"⟩]
          else []) := by
  simp only [notifyPhase] at h
  by_cases ht : findTags note = []
  · rw [if_pos ht] at h
    have h1 : (notifyCoord app s meta (findTags note) note cats user email
        ct).1 = s2 := by rw [h]
    rw [← h1, notifyCoord_calls, ht]
    simp
  · rw [if_neg ht] at h
    cases he : (notify_tagged_user app (findTags note) meta.proj_ids note cats
        user ct "userTag").2 with
    | some e => rw [he] at h; simp at h
    | none =>
      rw [he] at h
      have h0 : notifyCoord app
          (recordCall s (findTags note) meta.proj_ids "userTag"
            (notify_tagged_user app (findTags note) meta.proj_ids note cats
              user ct "userTag").1)
          meta (findTags note) note cats user email ct = (s2, none) := h
      have h1 : (notifyCoord app
          (recordCall s (findTags note) meta.proj_ids "userTag"
            (notify_tagged_user app (findTags note) meta.proj_ids note cats
              user ct "userTag").1)
          meta (findTags note) note cats user email ct).1 = s2 := by rw [h0]
      rw [← h1, notifyCoord_calls, recordCall_calls, if_neg ht,
        List.append_assoc]

theorem notifyStep_project (app : Application) (s1 : DbState) (note : String)
    (cats : List String) (user email : String) (ct : Time) (meta : ProjMeta) :
    notifyStep app s1 note cats user email "project" ct (some meta)
      = notifyPhase app s1 meta note cats user email ct := by
  simp [notifyStep]

theorem propagateStep_project (app : Application) (s2 : DbState)
    (pid note : String) (cats : List String) (user email : String)
    (ps : List String) :
    propagateStep app s2 pid note cats user email "project" ps = s2 := by
  simp [propagateStep]

/-! Lemmas for the GET handler: dict building and sorting. -/

theorem lookupD_dictInsert {α : Type} (k : String) (v : α)
    (d : List (String × α)) (t : String) :
    lookupD (dictInsert k v d) t = if k = t then some v else lookupD d t := by
  induction d with
  | nil => rfl
  | cons p rest ih =>
    simp only [dictInsert]
    by_cases hpk : p.1 = k
    · rw [if_pos hpk]
      by_cases hkt : k = t <;> simp [lookupD, hpk, hkt]
    · rw [if_neg hpk]
      by_cases hpt : p.1 = t
      · have hkt : ¬k = t := fun hh => hpk (hpt.trans hh.symm)
        simp [lookupD, hpt, hkt]
      · by_cases hkt : k = t
        · subst hkt
          simp [lookupD, hpt, ih]
        · simp [lookupD, hpt, hkt, ih]

theorem mem_keys_dictInsert {α : Type} (k : String) (v : α)
    (d : List (String × α)) (x : String)
    (h : x ∈ (dictInsert k v d).map Prod.fst) :
    x = k ∨ x ∈ d.map Prod.fst := by
  induction d with
  | nil =>
    simp [dictInsert] at h
    exact Or.inl h
  | cons p rest ih =>
    simp only [dictInsert] at h
    by_cases hpk : p.1 = k
    · rw [if_pos hpk] at h
      simp only [List.map_cons, List.mem_cons] at h ⊢
      rcases h with h | h
      · exact Or.inl h
      · exact Or.inr (Or.inr h)
    · rw [if_neg hpk] at h
      simp only [List.map_cons, List.mem_cons] at h ⊢
      rcases h with h | h
      · exact Or.inr (Or.inl h)
      · rcases ih h with h1 | h1
        · exact Or.inl h1
        · exact Or.inr (Or.inr h1)

theorem nodup_keys_dictInsert {α : Type} (k : String) (v : α)
    (d : List (String × α)) (h : (d.map Prod.fst).Nodup) :
    ((dictInsert k v d).map Prod.fst).Nodup := by
  induction d with
  | nil => simp [dictInsert]
  | cons p rest ih =>
    simp only [dictInsert]
    simp only [List.map_cons, List.nodup_cons] at h
    by_cases hpk : p.1 = k
    · rw [if_pos hpk]
      simp only [List.map_cons, List.nodup_cons]
      exact ⟨hpk ▸ h.1, h.2⟩
    · rw [if_neg hpk]
      simp only [List.map_cons, List.nodup_cons]
      refine ⟨?_, ih h.2⟩
      intro hmem
      rcases mem_keys_dictInsert k v rest p.1 hmem with h1 | h1
      · exact hpk h1
      · exact h.1 h1

theorem nodup_keys_foldl (docs : List RunningNote) :
    ∀ init : List (String × NoteContents), (init.map Prod.fst).Nodup →
      ((docs.foldl
          (fun acc d => dictInsert d.created_at_utc (noteContents d) acc)
          init).map Prod.fst).Nodup := by
  induction docs with
  | nil => intro init h; exact h
  | cons d docs ih =>
    intro init h
    exact ih _ (nodup_keys_dictInsert _ _ _ h)

theorem lookupD_foldl (docs : List RunningNote) (t : String) :
    ∀ init, lookupD
        (docs.foldl
          (fun acc d => dictInsert d.created_at_utc (noteContents d) acc)
          init) t
      = match docs.reverse.find? (fun d => d.created_at_utc == t) with
        | some d => some (noteContents d)
        | none => lookupD init t := by
  induction docs with
  | nil => intro init; rfl
  | cons d docs ih =>
    intro init
    simp only [List.foldl_cons, List.reverse_cons]
    rw [ih, List.find?_append]
    cases hf : docs.reverse.find? (fun x => x.created_at_utc == t) with
    | some y => simp [Option.or]
    | none =>
      by_cases hd : d.created_at_utc = t <;>
        simp [Option.or, hd, lookupD_dictInsert]

theorem mem_iff_lookupD {α : Type} (d : List (String × α))
    (hd : (d.map Prod.fst).Nodup) (t : String) (v : α) :
    (t, v) ∈ d ↔ lookupD d t = some v := by
  induction d with
  | nil => simp [lookupD]
  | cons p rest ih =>
    simp only [List.map_cons, List.nodup_cons] at hd
    simp only [List.mem_cons, lookupD]
    by_cases hpt : p.1 = t
    · rw [if_pos hpt]
      constructor
      · rintro (h | h)
        · rw [← h]
        · exfalso
          have : t ∈ rest.map Prod.fst := by
            simpa using List.mem_map_of_mem Prod.fst h
          exact hd.1 (hpt ▸ this)
      · intro h
        left
        have hv := Option.some.inj h
        exact Prod.ext hpt.symm hv.symm
    · rw [if_neg hpt]
      constructor
      · rintro (h | h)
        · exact absurd (congrArg Prod.fst h.symm) hpt
        · exact (ih hd.2).1 h
      · intro h
        exact Or.inr ((ih hd.2).2 h)

theorem insertDesc_perm (p : String × NoteContents)
    (l : List (String × NoteContents)) : (insertDesc p l).Perm (p :: l) := by
  induction l with
  | nil => exact List.Perm.refl _
  | cons q rest ih =>
    unfold insertDesc
    split
    · exact List.Perm.refl _
    · exact (ih.cons q).trans (List.Perm.swap p q rest)

theorem sortDesc_perm (l : List (String × NoteContents)) :
    (sortDesc l).Perm l := by
  induction l with
  | nil => exact List.Perm.refl _
  | cons p rest ih =>
    exact (insertDesc_perm p (sortDesc rest)).trans (ih.cons p)

theorem make_run_db (app : Application) (s : DbState) (pid note : String)
    (cats : List String) (user email nt : String) (t? : Option Time)
    (ps : List String) (m? : Option ProjMeta)
    (hres : resolveProjects app nt pid = Except.ok (ps, m?)) :
    (make_running_note app s pid note cats user email nt t?).1.running_notes_db
      = s.running_notes_db
        ++ [builtNote app pid note cats user email nt t? ps] := by
  rw [make_eq_afterResolve app s pid note cats user email nt t? ps m? hres]
  exact afterResolve_run_db app s pid note cats user email nt t? ps m?

/-! Claim theorems. -/

/-- C1, counterexample: the claim says no exception ever escapes
`notify_tagged_user` and `make_running_note` still succeeds when every
notification attempt fails; but when the SMTP submission for the one tagged
user fails, the exception escapes and `make_running_note` returns it instead
of the created note. -/
theorem c1_counterexample :
    (make_running_note app1 s0 "P1" "hi @bob" [] "alice" "alice@y.se"
        "project" none).2 = Except.error (Err.smtpError "bob@x.se") := rfl

/-- C1, amended: any failure in the Slack path is caught and demoted to an
e-mail attempt for that user only, and `notify_tagged_user` raises nothing
provided every attempted SMTP submission succeeds; an SMTP failure, however,
escapes to the caller. -/
theorem c1_amended (app : Application) (userTags : List String)
    (project : String × String) (note : String) (categories : List String)
    (tagger : String) (timestamp : Time) (tagtype : String)
    (h : ∀ a, app.email_ok a = true) :
    (notify_tagged_user app userTags project note categories tagger timestamp
        tagtype).2 = none
    ∧ (∀ u addr, lookupD (viewResult app) u = some addr →
        ((app.user_prefs addr).getD "Both" = "Slack"
          ∨ (app.user_prefs addr).getD "Both" = "Both") →
        app.slack_ok addr = false →
        notifyUser app (viewResult app) tagtype u
          = ([⟨Channel.email, addr, tagtype⟩], none)) := by
  constructor
  · exact notifyLoop_err_none app (viewResult app) tagtype h userTags
  · intro u addr hlk hpref hslack
    unfold notifyUser
    rw [hlk]
    dsimp only
    rcases hpref with hp | hp <;> rw [hp] <;> simp [hslack, h]

/-- Witness for C1: with a working SMTP relay and a failing Slack path, the
dispatcher raises nothing and the user tagged with preference `Both` gets the
e-mail fallback. -/
theorem c1_witness :
    (notify_tagged_user appW ["bob"] ("P1", "Project One") "hey" [] "alice"
        ⟨7⟩ "userTag").2 = none
    ∧ notifyUser appW (viewResult appW) "userTag" "bob"
        = ([⟨Channel.email, "bob@x.se", "userTag"⟩], none) := by
  refine ⟨(c1_amended appW ["bob"] ("P1", "Project One") "hey" [] "alice" ⟨7⟩
      "userTag" (fun a => rfl)).1, ?_⟩
  exact (c1_amended appW ["bob"] ("P1", "Project One") "hey" [] "alice" ⟨7⟩
      "userTag" (fun a => rfl)).2 "bob" "bob@x.se" rfl (Or.inr rfl) rfl

/-- C4: the claim says note_type `workset` resolves its linkage like
`flowcell`; in the code no branch of the `if/elif` chain assigns
`connected_projects` for `workset`, so every such call raises an
unbound-local error before anything is persisted. -/
theorem c4_workset_unbound (app : Application) (s : DbState)
    (pid note : String) (cats : List String) (user email : String)
    (t? : Option Time) :
    make_running_note app s pid note cats user email "workset" t?
      = (s, Except.error (Err.unboundLocal "connected_projects")) := by
  apply make_eq_error
  rfl

/-- C8: once the linkage resolved, the note is saved before any notification
runs, and the running-notes store in the post-state is exactly the old store
plus the new note — whatever the notification phase does, including raising. -/
theorem c8_persisted (app : Application) (s : DbState) (pid note : String)
    (cats : List String) (user email nt : String) (t? : Option Time)
    (ps : List String) (m? : Option ProjMeta)
    (hres : resolveProjects app nt pid = Except.ok (ps, m?)) :
    (make_running_note app s pid note cats user email nt t?).1.running_notes_db
      = s.running_notes_db
        ++ [builtNote app pid note cats user email nt t? ps] :=
  make_run_db app s pid note cats user email nt t? ps m? hres

/-- Witness for C8: in a run whose notification phase raises an SMTP error,
the saved note is still in the store of the post-state. -/
theorem c8_witness :
    (make_running_note app1 s0 "P1" "hi @bob" [] "alice" "alice@y.se"
        "project" none).1.running_notes_db
      = s0.running_notes_db ++ [builtNote app1 "P1" "hi @bob" [] "alice"
          "alice@y.se" "project" none ["P1"]] :=
  c8_persisted app1 s0 "P1" "hi @bob" [] "alice" "alice@y.se" "project" none
    ["P1"] (some ⟨("P1", "Project One"), ""⟩) rfl

/-- C3, counterexample: the claim says the persisted projects field of a
project note is `[parent_id, project_display_name]`; on a successful create
against a project with display name `Proj Six` the persisted field is the
one-element `[parent_id]`. -/
theorem c3_counterexample :
    (make_running_note app6 s0 "P6" "plain note" [] "alice" "alice@y.se"
        "project" none).2
      = Except.ok (builtNote app6 "P6" "plain note" [] "alice" "alice@y.se"
          "project" none ["P6"])
    ∧ (builtNote app6 "P6" "plain note" [] "alice" "alice@y.se" "project"
        none ["P6"]).projects ≠ ["P6", "Proj Six"] := ⟨rfl, by decide⟩

/-- C3, amended: for every successful create with note_type `project` the
persisted projects field equals the one-element sequence `[parent_id]` (the
pair with the looked-up display name is only passed to the notification
calls), and the call fails before persisting when `parent_id` does not
resolve to a project. -/
theorem c3_amended (app : Application) (s : DbState) (pid note : String)
    (cats : List String) (user email : String) (t? : Option Time) :
    (∀ n, (make_running_note app s pid note cats user email "project" t?).2
        = Except.ok n → n.projects = [pid])
    ∧ ((app.projects_db_view pid).getLast? = none →
        make_running_note app s pid note cats user email "project" t?
          = (s, Except.error (Err.unboundLocal "doc_id"))) := by
  constructor
  · intro n hok
    obtain ⟨ps, m?, hres, hn⟩ := make_ok_inv app s pid note cats user email
      "project" t? n hok
    have hps : ps = [pid] := resolve_project_ps app pid ps m? hres
    rw [hn, hps]
    rfl
  · intro hnone
    apply make_eq_error
    unfold resolveProjects
    rw [if_pos rfl, hnone]

/-- Witness for C3: the success half at a resolvable project, the failure
half at an unresolvable parent id. -/
theorem c3_witness :
    (builtNote app6 "P6" "note2" [] "alice" "alice@y.se" "project" none
        ["P6"]).projects = ["P6"]
    ∧ make_running_note app1 s0 "NOPE" "note2" [] "alice" "alice@y.se"
        "project" none = (s0, Except.error (Err.unboundLocal "doc_id")) := by
  constructor
  · exact (c3_amended app6 s0 "P6" "note2" [] "alice" "alice@y.se" none).1
      (builtNote app6 "P6" "note2" [] "alice" "alice@y.se" "project" none
        ["P6"]) rfl
  · exact (c3_amended app1 s0 "NOPE" "note2" [] "alice" "alice@y.se" none).2
      rfl

/-- C5, counterexample: the claim says every successfully created note has a
non-empty projects field; a flowcell whose linkage row carries an empty
project list yields a successful create whose persisted projects field is
empty. -/
theorem c5_counterexample :
    (make_running_note app5 s0 "FC0" "txt" [] "u" "u@x.se" "flowcell"
        none).2
      = Except.ok (builtNote app5 "FC0" "txt" [] "u" "u@x.se" "flowcell"
          none [])
    ∧ (builtNote app5 "FC0" "txt" [] "u" "u@x.se" "flowcell" none
        []).projects = [] := ⟨rfl, rfl⟩

/-- C5, amended: every successfully created note carries the input note_type
and exactly the linkage-resolved project list, which is non-empty whenever
the linkage lookup yields a non-empty list — always the case for note_type
`project`. -/
theorem c5_amended (app : Application) (s : DbState) (pid note : String)
    (cats : List String) (user email nt : String) (t? : Option Time)
    (ps : List String) (m? : Option ProjMeta) (n : RunningNote)
    (hres : resolveProjects app nt pid = Except.ok (ps, m?))
    (hok : (make_running_note app s pid note cats user email nt t?).2
      = Except.ok n) :
    n.note_type = nt ∧ n.projects = ps ∧ (nt = "project" → n.projects ≠ []) := by
  obtain ⟨ps2, m2, hres2, hn⟩ := make_ok_inv app s pid note cats user email
    nt t? n hok
  have hpair := Except.ok.inj (hres2.symm.trans hres)
  have hps : ps2 = ps := congrArg Prod.fst hpair
  subst hn
  refine ⟨rfl, hps, ?_⟩
  intro hproj
  subst hproj
  have hpid : ps = [pid] := resolve_project_ps app pid ps m? hres
  show ps2 ≠ []
  rw [hps, hpid]
  simp

/-- Witness for C5: a flowcell create whose persisted note keeps the input
note_type and the two linked projects. -/
theorem c5_witness :
    (builtNote app2 "FC1" "txt" [] "u" "u@x.se" "flowcell" none
        ["P001", "P002"]).note_type = "flowcell"
    ∧ (builtNote app2 "FC1" "txt" [] "u" "u@x.se" "flowcell" none
        ["P001", "P002"]).projects = ["P001", "P002"]
    ∧ ("flowcell" = "project" →
        (builtNote app2 "FC1" "txt" [] "u" "u@x.se" "flowcell" none
          ["P001", "P002"]).projects ≠ []) :=
  c5_amended app2 s0 "FC1" "txt" [] "u" "u@x.se" "flowcell" none
    ["P001", "P002"] none
    (builtNote app2 "FC1" "txt" [] "u" "u@x.se" "flowcell" none
      ["P001", "P002"]) rfl rfl

/-- C9: against the claim that two successive default-time calls produce
distinct timestamp-derived ids, the Python default argument
`created_time=datetime.datetime.now(...)` is evaluated once at definition
time, so both calls share `default_created_time` and produce identical notes
with identical ids. -/
theorem c9_frozen_default_time (app : Application) (s : DbState)
    (pid note : String) (cats : List String) (user email nt : String)
    (n1 n2 : RunningNote)
    (h1 : (make_running_note app s pid note cats user email nt none).2
      = Except.ok n1)
    (h2 : (make_running_note app
        (make_running_note app s pid note cats user email nt none).1
        pid note cats user email nt none).2 = Except.ok n2) :
    n1 = n2 ∧ n1.id = n2.id := by
  obtain ⟨ps1, m1, hres1, hn1⟩ := make_ok_inv app s pid note cats user email
    nt none n1 h1
  obtain ⟨ps2, m2, hres2, hn2⟩ := make_ok_inv app _ pid note cats user email
    nt none n2 h2
  have hpair := Except.ok.inj (hres1.symm.trans hres2)
  have hps : ps1 = ps2 := congrArg Prod.fst hpair
  have heq : n1 = n2 := by rw [hn1, hn2, hps]
  exact ⟨heq, congrArg RunningNote.id heq⟩

/-- Witness for C9: two successive default-time creates of the same project
note both succeed and give the very same note. -/
theorem c9_witness :
    builtNote app7 "P7" "note" [] "u" "u@x.se" "project" none ["P7"]
        = builtNote app7 "P7" "note" [] "u" "u@x.se" "project" none ["P7"]
    ∧ (builtNote app7 "P7" "note" [] "u" "u@x.se" "project" none ["P7"]).id
        = (builtNote app7 "P7" "note" [] "u" "u@x.se" "project" none
            ["P7"]).id :=
  c9_frozen_default_time app7 s0 "P7" "note" [] "u" "u@x.se" "project"
    (builtNote app7 "P7" "note" [] "u" "u@x.se" "project" none ["P7"])
    (builtNote app7 "P7" "note" [] "u" "u@x.se" "project" none ["P7"])
    rfl rfl

/-- C10: the GET response is keyed by `created_at_utc`, its keys are
pairwise distinct, and a pair `(t, v)` appears exactly when `v` is the
contents of the last scanned note carrying timestamp `t` — notes sharing a
timestamp with a later note are silently dropped. -/
theorem c10_last_note_per_timestamp (docs : List RunningNote) (t : String)
    (v : NoteContents) :
    ((getRunningNotes docs).map Prod.fst).Nodup
    ∧ ((t, v) ∈ getRunningNotes docs ↔
        (docs.reverse.find? (fun d => d.created_at_utc == t)).map noteContents
          = some v) := by
  unfold getRunningNotes
  have hperm := sortDesc_perm
    (docs.foldl (fun acc d => dictInsert d.created_at_utc (noteContents d) acc)
      [])
  have hnodup : ((docs.foldl
      (fun acc d => dictInsert d.created_at_utc (noteContents d) acc)
      []).map Prod.fst).Nodup :=
    nodup_keys_foldl docs [] (by simp)
  constructor
  · exact ((hperm.map Prod.fst).nodup_iff).2 hnodup
  · rw [hperm.mem_iff, mem_iff_lookupD _ hnodup t v, lookupD_foldl docs t []]
    cases hf : docs.reverse.find? (fun d => d.created_at_utc == t) <;>
      simp [lookupD]

/-- C7: a POST whose body has no `note` or an empty `note` answers 400 with
the HTML error body and leaves the state untouched; a POST with a non-empty
`note` that completes answers 201 together with the created note, which is
then in the running-notes store. -/
theorem c7_post (app : Application) (s : DbState) (pid : String)
    (data : PostBody) (user : UserInfo) :
    (data.note.getD "" = "" →
      post app s pid data user
        = (s, Except.ok (400, PostResult.badRequest
            "<html><body>No project id or note parameters found</body></html>")))
    ∧ (∀ s2 st r, data.note.getD "" ≠ "" →
        post app s pid data user = (s2, Except.ok (st, r)) →
        st = 201 ∧ ∃ n, r = PostResult.created n
          ∧ n ∈ s2.running_notes_db) := by
  constructor
  · intro h
    simp only [post]
    rw [if_pos h]
  · intro s2 st r hne hpost
    simp only [post] at hpost
    rw [if_neg hne] at hpost
    cases hmk : make_running_note app s pid (data.note.getD "")
        (data.categories.getD []) user.name user.email
        (data.note_type.getD "") none with
    | mk s1 res =>
      rw [hmk] at hpost
      cases res with
      | error e => simp at hpost
      | ok n =>
        simp only [Prod.mk.injEq, Except.ok.injEq] at hpost
        obtain ⟨hs, hst, hr⟩ := hpost
        refine ⟨hst.symm, n, hr.symm, ?_⟩
        have h2 : (make_running_note app s pid (data.note.getD "")
            (data.categories.getD []) user.name user.email
            (data.note_type.getD "") none).2 = Except.ok n := by
          rw [hmk]
        obtain ⟨ps, m?, hres, hn⟩ := make_ok_inv app s pid (data.note.getD "")
          (data.categories.getD []) user.name user.email
          (data.note_type.getD "") none n h2
        have hdb := make_run_db app s pid (data.note.getD "")
          (data.categories.getD []) user.name user.email
          (data.note_type.getD "") none ps m? hres
        have hs1 : (make_running_note app s pid (data.note.getD "")
            (data.categories.getD []) user.name user.email
            (data.note_type.getD "") none).1 = s1 := by
          rw [hmk]
        rw [← hs, ← hs1, hdb, hn]
        simp

/-- Witness for C7: the 400 half at a body without `note`, the 201 half at a
body carrying `hello`. -/
theorem c7_witness :
    post app7 s0 "P7" dataE u7
        = (s0, Except.ok (400, PostResult.badRequest
            "<html><body>No project id or note parameters found</body></html>"))
    ∧ (201 = 201 ∧ ∃ n, PostResult.created n7 = PostResult.created n
        ∧ n ∈ s7.running_notes_db) := by
  constructor
  · exact (c7_post app7 s0 "P7" dataE u7).1 rfl
  · exact (c7_post app7 s0 "P7" dataN u7).2 s7 201 (PostResult.created n7)
      (by decide) rfl

/-- C2, counterexample: the claim says writing the derived notes does not
re-run the user-tag/coordinator notification pipeline; propagating a
flowcell note whose body contains a tag re-runs the legacy user-tag pipeline
once per connected project. -/
theorem c2_counterexample :
    (make_running_note app2 s0 "FC1" "ping @bob" ["c1"] "u" "u@x.se"
        "flowcell" none).1.legacy_calls
      = [(["bob"], "P001"), (["bob"], "P002")] := rfl

/-- C2, amended: a flowcell/workset/flowcell_ont create whose linkage
resolves writes exactly one derived project-scoped note per connected
project — body the original text behind the generated header line with the
link to the parent, categories comma-joined — triggers no further
propagation and leaves the primary notification trace untouched; but the
legacy derived-note path re-runs the user-tag notification pipeline on every
derived note whose body contains tags. -/
theorem c2_amended (app : Application) (s : DbState) (pid note : String)
    (cats : List String) (user email : String) (t? : Option Time)
    (note_type : String) (ps : List String) (m? : Option ProjMeta)
    (hnt : note_type = "flowcell" ∨ note_type = "workset"
      ∨ note_type = "flowcell_ont")
    (hres : resolveProjects app note_type pid = Except.ok (ps, m?)) :
    make_running_note app s pid note cats user email note_type t?
      = ({ s with
            running_notes_db := s.running_notes_db
              ++ [builtNote app pid note cats user email note_type t? ps],
            legacy_notes := s.legacy_notes ++ ps.map (fun p =>
              ⟨p, derivedNoteBody note_type pid note,
                String.intercalate ", " cats, user, email⟩),
            legacy_calls := s.legacy_calls ++
              (if findTags (derivedNoteBody note_type pid note) = [] then []
               else ps.map fun p =>
                 (findTags (derivedNoteBody note_type pid note), p)) },
         Except.ok
           (builtNote app pid note cats user email note_type t? ps)) := by
  have hnp : note_type ≠ "project" := by
    rcases hnt with h | h | h <;> rw [h] <;> decide
  rw [make_eq_afterResolve app s pid note cats user email note_type t? ps m?
    hres]
  simp only [afterResolve]
  have hstep : notifyStep app
      (saveNote s (builtNote app pid note cats user email note_type t? ps))
      note cats user email note_type (t?.getD app.default_created_time) m?
      = (saveNote s (builtNote app pid note cats user email note_type t? ps),
         none) := by
    unfold notifyStep
    rw [if_neg hnp]
  rw [hstep]
  dsimp only
  unfold propagateStep
  rw [if_pos hnt, propagationPhase_eq]
  simp [saveNote]

/-- Witness for C2: the flowcell `FC1` note propagates onto `P001` and
`P002`, creating one derived note each and re-running the tag pipeline. -/
theorem c2_witness :
    make_running_note app2 s0 "FC1" "ping @bob" ["c1"] "u" "u@x.se"
        "flowcell" none
      = ({ s0 with
            running_notes_db := s0.running_notes_db
              ++ [builtNote app2 "FC1" "ping @bob" ["c1"] "u" "u@x.se"
                  "flowcell" none ["P001", "P002"]],
            legacy_notes := s0.legacy_notes ++ (["P001", "P002"]).map (fun p =>
              ⟨p, derivedNoteBody "flowcell" "FC1" "ping @bob",
                String.intercalate ", " ["c1"], "u", "u@x.se"⟩),
            legacy_calls := s0.legacy_calls ++
              (if findTags (derivedNoteBody "flowcell" "FC1" "ping @bob")
                  = [] then []
               else (["P001", "P002"]).map fun p =>
                 (findTags (derivedNoteBody "flowcell" "FC1" "ping @bob"),
                   p)) },
         Except.ok (builtNote app2 "FC1" "ping @bob" ["c1"] "u" "u@x.se"
           "flowcell" none ["P001", "P002"])) :=
  c2_amended app2 s0 "FC1" "ping @bob" ["c1"] "u" "u@x.se" none "flowcell"
    ["P001", "P002"] none (Or.inl rfl) rfl

/-- C6: in a successful project-note create starting from an empty call
trace, a notification with reason `creation` goes out — to exactly the
normalized coordinator handle, once — if and only if that handle is
non-empty, not among the tags extracted from the note text, and different
from the local part of the author address. -/
theorem c6_coordinator_creation (app : Application) (s : DbState)
    (pid note : String) (cats : List String) (user email : String)
    (t? : Option Time) (meta : ProjMeta) (n : RunningNote)
    (hres : resolveProjects app "project" pid
      = Except.ok ([pid], some meta))
    (hcalls : s.calls = [])
    (hok : (make_running_note app s pid note cats user email "project"
        t?).2 = Except.ok n) :
    ((make_running_note app s pid note cats user email "project"
        t?).1.calls.filter (fun c => c.tagtype = "creation"))
      = (if asciiFold meta.proj_coord_with_accents ≠ ""
            ∧ asciiFold meta.proj_coord_with_accents ∉ findTags note
            ∧ asciiFold meta.proj_coord_with_accents ≠ localPart email
         then [⟨[asciiFold meta.proj_coord_with_accents], meta.proj_ids.1,
                 meta.proj_ids.2, "creation"⟩]
         else []) := by
  rw [make_eq_afterResolve app s pid note cats user email "project" t? [pid]
    (some meta) hres] at hok ⊢
  simp only [afterResolve] at hok ⊢
  rw [notifyStep_project] at hok ⊢
  cases hnp : notifyPhase app
      (saveNote s (builtNote app pid note cats user email "project" t? [pid]))
      meta note cats user email (t?.getD app.default_created_time) with
  | mk s2 e? =>
    rw [hnp] at hok
    cases e? with
    | some e =>
      exact absurd (show Except.error e = Except.ok n from hok) (by simp)
    | none =>
      dsimp only
      rw [propagateStep_project]
      have hc := notifyPhase_calls_of_ok app
        (saveNote s (builtNote app pid note cats user email "project" t?
          [pid]))
        meta note cats user email (t?.getD app.default_created_time) s2 hnp
      have hsc : (saveNote s (builtNote app pid note cats user email
          "project" t? [pid])).calls = s.calls := rfl
      rw [hsc, hcalls] at hc
      rw [hc]
      simp only [List.nil_append, List.filter_append]
      have h1 : List.filter (fun (c : NotifyCall) =>
            decide (c.tagtype = "creation"))
          (if findTags note = [] then ([] : List NotifyCall)
           else [⟨findTags note, meta.proj_ids.1, meta.proj_ids.2,
                   "userTag"⟩])
          = [] := by
        split <;> simp
      have h2 : List.filter (fun (c : NotifyCall) =>
            decide (c.tagtype = "creation"))
          (if asciiFold meta.proj_coord_with_accents ≠ ""
              ∧ asciiFold meta.proj_coord_with_accents ∉ findTags note
              ∧ asciiFold meta.proj_coord_with_accents ≠ localPart email
           then ([⟨[asciiFold meta.proj_coord_with_accents],
                   meta.proj_ids.1, meta.proj_ids.2, "creation"⟩]
                 : List NotifyCall)
           else [])
          = (if asciiFold meta.proj_coord_with_accents ≠ ""
              ∧ asciiFold meta.proj_coord_with_accents ∉ findTags note
              ∧ asciiFold meta.proj_coord_with_accents ≠ localPart email
             then ([⟨[asciiFold meta.proj_coord_with_accents],
                     meta.proj_ids.1, meta.proj_ids.2, "creation"⟩]
                   : List NotifyCall)
             else []) := by
        split <;> simp
      rw [h1, h2, List.nil_append]

/-- Witness for C6: project `P6` has coordinator handle `jane.doe`, the note
text carries no tags and the author is `alice`, so exactly one `creation`
notification to the coordinator is recorded. -/
theorem c6_witness :
    ((make_running_note app6 s0 "P6" "hello" [] "alice" "alice@y.se"
        "project" none).1.calls.filter (fun c => c.tagtype = "creation"))
      = (if asciiFold "jane.doe" ≠ ""
            ∧ asciiFold "jane.doe" ∉ findTags "hello"
            ∧ asciiFold "jane.doe" ≠ localPart "alice@y.se"
         then [⟨[asciiFold "jane.doe"], "P6", "Proj Six", "creation"⟩]
         else []) :=
  c6_coordinator_creation app6 s0 "P6" "hello" [] "alice" "alice@y.se" none
    ⟨("P6", "Proj Six"), "jane.doe"⟩
    (builtNote app6 "P6" "hello" [] "alice" "alice@y.se" "project" none
      ["P6"])
    rfl rfl rfl

end GenStat
